import Mathlib

/-!
Verification of the warehouse scene-generation pipeline.

This file shallowly embeds the pipeline of `warehouse.py`, `warehouse_utils.py`
and `hdf5_convert.py`: geometry utilities (scipy rotation conventions),
the scene builders, the camera rig sampler, the per-camera metadata
writer, the batch coordinator, the texture discovery routine, and the
archival converter's transformation-matrix builder.

Conventions of the embedding:
* Python floats are modelled as real numbers.
* Calls into the `random` module are modelled by passing the drawn values
  explicitly as arguments (one argument per draw site, in source order).
* A quaternion is a scalar-first (w, x, y, z) record, the convention in
  which kubric/pyquaternion store `obj.quaternion` (kubric's default
  identity is (1, 0, 0, 0)). scipy's `Rotation.from_quat`, however, reads
  a 4-component array scalar-LAST (x, y, z, w), so feeding it a kubric
  quaternion constructs the rotation of the component-permuted record;
  `permQuat` models that misread. `Rotation.inv` is quaternion
  conjugation (the inverse for unit quaternions, which is what every call
  site passes; the permutation preserves the norm) and composition of
  rotations is the Hamilton product.
* scipy's `as_euler("xyz", degrees)` (extrinsic x-y-z) is modelled by the
  standard closed form on the rotation matrix: for
  R = Rz(c) * Ry(b) * Rx(a) it returns (atan2 R21 R22, arcsin (-R20),
  atan2 R10 R00), scaled by 180/pi when `degrees` is true.
-/

namespace Warehouse

/-- Degrees to radians, as `math.radians` / scipy's `degrees=True` handling. -/
noncomputable def radians (d : ℝ) : ℝ := d * (Real.pi / 180)

/-- Rotation about the x axis (column-vector convention). -/
noncomputable def rotX (a : ℝ) : Matrix (Fin 3) (Fin 3) ℝ :=
  Matrix.of ![![1, 0, 0], ![0, Real.cos a, -Real.sin a], ![0, Real.sin a, Real.cos a]]

/-- Rotation about the y axis. -/
noncomputable def rotY (b : ℝ) : Matrix (Fin 3) (Fin 3) ℝ :=
  Matrix.of ![![Real.cos b, 0, Real.sin b], ![0, 1, 0], ![-Real.sin b, 0, Real.cos b]]

/-- Rotation about the z axis. -/
noncomputable def rotZ (c : ℝ) : Matrix (Fin 3) (Fin 3) ℝ :=
  Matrix.of ![![Real.cos c, -Real.sin c, 0], ![Real.sin c, Real.cos c, 0], ![0, 0, 1]]

/-- scipy `Rotation.from_euler("xyz", [a, b, c])` (radians): extrinsic
rotations about the fixed x, then y, then z axes, i.e. Rz(c) Ry(b) Rx(a). -/
noncomputable def from_euler_xyz (a b c : ℝ) : Matrix (Fin 3) (Fin 3) ℝ :=
  rotZ c * rotY b * rotX a

/-- `hdf5_convert.create_transformation_matrix`: starts from `np.eye(4)`,
writes `Rotation.from_euler("xyz", euler_angles, degrees=True).as_matrix()`
into the top-left 3x3 block and `position` into the top-right column. -/
noncomputable def create_transformation_matrix (position euler_angles : Fin 3 → ℝ) :
    Matrix (Fin 4) (Fin 4) ℝ :=
  Matrix.of fun i j =>
    if hi : (i : ℕ) < 3 then
      if hj : (j : ℕ) < 3 then
        from_euler_xyz (radians (euler_angles 0)) (radians (euler_angles 1))
          (radians (euler_angles 2)) ⟨i, hi⟩ ⟨j, hj⟩
      else position ⟨i, hi⟩
    else if (j : ℕ) < 3 then 0 else 1

/-- The top-left 3x3 block of a 4x4 matrix. -/
def topLeft3 (M : Matrix (Fin 4) (Fin 4) ℝ) : Matrix (Fin 3) (Fin 3) ℝ :=
  Matrix.of fun i j => M (Fin.castLE (by omega) i) (Fin.castLE (by omega) j)

/-- A quaternion, scalar part first. -/
structure Quat where
  w : ℝ
  x : ℝ
  y : ℝ
  z : ℝ

/-- Hamilton product, the composition used both by `pyquaternion.Quaternion.__mul__`
and by scipy rotation composition. -/
def qmul (p q : Quat) : Quat :=
  { w := p.w * q.w - p.x * q.x - p.y * q.y - p.z * q.z
    x := p.w * q.x + p.x * q.w + p.y * q.z - p.z * q.y
    y := p.w * q.y - p.x * q.z + p.y * q.w + p.z * q.x
    z := p.w * q.z + p.x * q.y - p.y * q.x + p.z * q.w }

/-- Quaternion conjugate; scipy's `Rotation.inv` for a unit quaternion. -/
def qconj (q : Quat) : Quat := ⟨q.w, -q.x, -q.y, -q.z⟩

/-- `Rotation.from_quat(obj.quaternion)` for a kubric object: kubric
serializes the quaternion scalar-first as the array [w, x, y, z], but
scipy reads a 4-array scalar-last as [x, y, z, w]. The rotation scipy
actually constructs is therefore the one whose scalar-first record is
(w := q.z, x := q.w, y := q.x, z := q.y). -/
def permQuat (q : Quat) : Quat := ⟨q.z, q.w, q.x, q.y⟩

/-- Squared norm of a quaternion. -/
def qnormSq (q : Quat) : ℝ := q.w * q.w + q.x * q.x + q.y * q.y + q.z * q.z

/-- `kb.Quaternion(axis=[ax, ay, az], angle=t)` for a unit axis:
scalar part cos(t/2), vector part sin(t/2) times the axis. -/
noncomputable def quatAxisAngle (ax ay az t : ℝ) : Quat :=
  ⟨Real.cos (t / 2), Real.sin (t / 2) * ax, Real.sin (t / 2) * ay, Real.sin (t / 2) * az⟩

/-- The rotation matrix represented by a unit quaternion (scipy `as_matrix`). -/
noncomputable def quatToMatrix (q : Quat) : Matrix (Fin 3) (Fin 3) ℝ :=
  Matrix.of
    ![![1 - 2 * (q.y * q.y + q.z * q.z), 2 * (q.x * q.y - q.w * q.z),
        2 * (q.x * q.z + q.w * q.y)],
      ![2 * (q.x * q.y + q.w * q.z), 1 - 2 * (q.x * q.x + q.z * q.z),
        2 * (q.y * q.z - q.w * q.x)],
      ![2 * (q.x * q.z - q.w * q.y), 2 * (q.y * q.z + q.w * q.x),
        1 - 2 * (q.x * q.x + q.y * q.y)]]

/-- Two-argument arctangent (numpy/scipy `arctan2 y x`). -/
noncomputable def atan2 (y x : ℝ) : ℝ := Complex.arg ⟨x, y⟩

/-- scipy `Rotation.as_euler("xyz", degrees)` on the rotation of a unit
quaternion: the closed form inverting `from_euler_xyz`, with the result
scaled to degrees exactly when the `degrees` keyword is passed. -/
noncomputable def as_euler_xyz (q : Quat) (degrees : Bool) : ℝ × ℝ × ℝ :=
  let R := quatToMatrix q
  let a := atan2 (R 2 1) (R 2 2)
  let b := Real.arcsin (-(R 2 0))
  let c := atan2 (R 1 0) (R 0 0)
  if degrees then (a * (180 / Real.pi), b * (180 / Real.pi), c * (180 / Real.pi))
  else (a, b, c)

/-! ## Scene entities

Kubric class hierarchy at the boundary used by `warehouse.py`:
`Cube` and `FileBasedObject` are subclasses of `PhysicalObject`;
`DirectionalLight` and `PointLight` are subclasses of `Light`
(`Light` is an `Object3D` but not a `PhysicalObject`); a newly
constructed `Cube` keeps the default identity quaternion. -/

/-- A scene entity added via `scene += entity`. -/
inductive Entity where
  | cube (name : String) (scale : ℝ × ℝ × ℝ) (position : ℝ × ℝ × ℝ)
  | fileObject (name : String) (scale : ℝ × ℝ × ℝ) (position : ℝ × ℝ × ℝ)
      (quaternion : Quat)
  | directionalLight (position : ℝ × ℝ × ℝ) (lookAt : ℝ × ℝ × ℝ)
      (intensity : ℝ) (color : ℝ × ℝ × ℝ)
  | pointLight (position : ℝ × ℝ × ℝ) (intensity : ℝ) (color : ℝ × ℝ × ℝ)

/-- `isinstance(o, kb.PhysicalObject)`: cubes and file-based objects. -/
def Entity.isPhysicalObject : Entity → Bool
  | .cube _ _ _ => true
  | .fileObject _ _ _ _ => true
  | .directionalLight _ _ _ _ => false
  | .pointLight _ _ _ => false

/-- `isinstance(o, kb.Light)`: directional and point lights. -/
def Entity.isLight : Entity → Bool
  | .cube _ _ _ => false
  | .fileObject _ _ _ _ => false
  | .directionalLight _ _ _ _ => true
  | .pointLight _ _ _ => true

/-- `isinstance(o, kb.DirectionalLight)`. -/
def Entity.isDirectionalLight : Entity → Bool
  | .directionalLight _ _ _ _ => true
  | _ => false

/-- `isinstance(o, kb.PointLight)`. -/
def Entity.isPointLight : Entity → Bool
  | .pointLight _ _ _ => true
  | _ => false

/-- The identity quaternion, kubric's default orientation for a `Cube`. -/
def qid : Quat := ⟨1, 0, 0, 0⟩

/-- `obj.quaternion` of a physical entity (identity for cubes). -/
def Entity.quaternion : Entity → Quat
  | .fileObject _ _ _ q => q
  | _ => qid

/-- `obj.name` (empty for the unnamed lights). -/
def Entity.name : Entity → String
  | .cube n _ _ => n
  | .fileObject n _ _ _ => n
  | _ => ""

/-- `obj.position`. -/
def Entity.position : Entity → ℝ × ℝ × ℝ
  | .cube _ _ p => p
  | .fileObject _ _ p _ => p
  | .directionalLight p _ _ _ => p
  | .pointLight p _ _ => p

/-- `obj.scale` (kubric default (1,1,1) for lights). -/
def Entity.scale : Entity → ℝ × ℝ × ℝ
  | .cube _ s _ => s
  | .fileObject _ s _ _ => s
  | _ => (1, 1, 1)

/-! ## os.path helpers used by the pipeline -/

/-- `os.path.basename`: the part after the last slash. -/
def basename (s : String) : String :=
  String.mk ((s.data.reverse.takeWhile (fun c => c ≠ '/')).reverse)

/-- `os.path.join a b` for the call sites of this repository: every joined
tail is a relative name and every head is non-empty without a trailing
slash, where the join is plain concatenation with a slash. -/
def pjoin (a b : String) : String := a ++ "/" ++ b

/-- `os.path.relpath path base`, restricted to the only shape it is called
on here: a path that was built as `base ++ "/" ++ rest` has relative path
`rest`; any other path is returned unchanged. -/
def os_relpath (path base : String) : String :=
  if (base ++ "/").data.isPrefixOf path.data then
    String.mk (path.data.drop (base ++ "/").data.length)
  else path

/-! ## Warehouse layout builder (`setup_building`) -/

/-- The sampled warehouse dimensions returned by `setup_building`. -/
structure Dims where
  length : ℝ
  width : ℝ
  height : ℝ

/-- `setup_building`: the floor slab plus the four wall slabs, in the order
they are added to the scene (the ceiling is commented out in the source;
texture application does not add entities). The dimensions are the values
drawn from `random.uniform` at the top of the function. -/
noncomputable def setup_building (l w h : ℝ) : List Entity :=
  [ .cube "floor" (l, w, 0.1) (0, 0, -0.1)
  , .cube "front_wall" (l, 0.2, h) (0, -w / 2, h / 2)
  , .cube "back_wall" (l, 0.2, h) (0, w / 2, h / 2)
  , .cube "left_wall" (0.2, w, h) (-l / 2, 0, h / 2)
  , .cube "right_wall" (0.2, w, h) (l / 2, 0, h / 2) ]

/-! ## Lighting (`add_random_lighting`) -/

/-- The random draws made for one light in `add_random_lighting`. -/
structure LightDraw where
  position : ℝ × ℝ × ℝ
  color : ℝ × ℝ × ℝ
  intensity : ℝ

/-- `add_random_lighting`: for `i in range(num_lights)`, light 0 is a
directional light aimed at the origin and every later light is a point
light; here `draws` lists the per-iteration random draws, so
`num_lights = draws.length`. -/
noncomputable def add_random_lighting (draws : List LightDraw) : List Entity :=
  match draws with
  | [] => []
  | d :: rest =>
    Entity.directionalLight d.position (0, 0, 0) d.intensity d.color ::
      rest.map (fun d => Entity.pointLight d.position d.intensity d.color)

/-! ## Object scatterer (`add_random_objects`, `place_pallet`) -/

/-- The rotation composed in the scatterer: the base 90-degree rotation
about x times the three jiggle quaternions, multiplied left to right. -/
noncomputable def jiggledQuat (jx jy jz : ℝ) : Quat :=
  qmul (qmul (qmul (quatAxisAngle 1 0 0 (Real.pi / 2)) (quatAxisAngle 1 0 0 jx))
      (quatAxisAngle 0 1 0 jy))
    (quatAxisAngle 0 0 1 jz)

/-- The random draws made for one scattered object in `add_random_objects`:
the chosen asset path, the isotropic scale, the planar position, and the
three jiggle angles. -/
structure ObjDraw where
  asset : String
  scale : ℝ
  px : ℝ
  py : ℝ
  jx : ℝ
  jy : ℝ
  jz : ℝ

/-- The entity built for one draw of `add_random_objects`. -/
noncomputable def scatteredObject (d : ObjDraw) : Entity :=
  .fileObject (basename d.asset) (d.scale, d.scale, d.scale) (d.px, d.py, 0)
    (jiggledQuat d.jx d.jy d.jz)

/-- `add_random_objects`: one `kb.FileBasedObject` per draw, in order. -/
noncomputable def add_random_objects (draws : List ObjDraw) : List Entity :=
  draws.map scatteredObject

/-- The random draws made in `place_pallet`: asset path, scale in [0.9,1.1],
the two planar uniforms over [-length,length] and [-width,width] (halved by
the source after drawing), the height in [0,1], and the jiggle angles. -/
structure PalletDraw where
  asset : String
  scale : ℝ
  ux : ℝ
  uy : ℝ
  uz : ℝ
  jx : ℝ
  jy : ℝ
  jz : ℝ

/-- `place_pallet`: the designated target, name-prefixed with `target_`. -/
noncomputable def place_pallet (d : PalletDraw) : Entity :=
  .fileObject ("target_" ++ basename d.asset) (d.scale, d.scale, d.scale)
    (d.ux / 2, d.uy / 2, d.uz) (jiggledQuat d.jx d.jy d.jz)

/-! ## Scene metadata (`generate_scene`) -/

/-- One entry of `scene_metadata["objects"]`. -/
structure SceneObjectRecord where
  name : String
  position : ℝ × ℝ × ℝ
  scale : ℝ × ℝ × ℝ
  rotation : ℝ × ℝ × ℝ

/-- The record written for a physical object:
`rotation = list(Rotation.from_quat(obj.quaternion).as_euler("xyz"))`
(no `degrees` keyword, so scipy's default radians; `from_quat` misreads
the scalar-first kubric components as scalar-last, hence `permQuat`). -/
noncomputable def toSceneObjectRecord (e : Entity) : Option SceneObjectRecord :=
  if e.isPhysicalObject then
    some { name := e.name
           position := e.position
           scale := e.scale
           rotation := as_euler_xyz (permQuat e.quaternion) false }
  else none

structure LightingConditions where
  ambient_color : ℝ × ℝ × ℝ
  num_lights : ℕ

structure SceneMetadataDocument where
  scene_index : ℕ
  warehouse_dimensions : Dims
  lighting_conditions : LightingConditions
  objects : List SceneObjectRecord

/-- The asset list `scene.assets` accumulated by `generate_scene` before the
metadata document is written: building, lights, racks, forklifts, pallets,
then the target pallet. -/
noncomputable def generate_scene_assets (dims : Dims) (lightDraws : List LightDraw)
    (rackDraws forkliftDraws palletDraws : List ObjDraw) (targetDraw : PalletDraw) :
    List Entity :=
  setup_building dims.length dims.width dims.height ++
    add_random_lighting lightDraws ++
    add_random_objects rackDraws ++
    add_random_objects forkliftDraws ++
    add_random_objects palletDraws ++
    [place_pallet targetDraw]

/-- The `scene_metadata` dictionary of `generate_scene`: `num_lights` counts
the assets that are `kb.Light` instances, `objects` collects a record for
every asset that is a `kb.PhysicalObject` instance. -/
noncomputable def generate_scene (scene_index : ℕ) (dims : Dims)
    (ambient : ℝ × ℝ × ℝ) (lightDraws : List LightDraw)
    (rackDraws forkliftDraws palletDraws : List ObjDraw) (targetDraw : PalletDraw) :
    SceneMetadataDocument :=
  let assets := generate_scene_assets dims lightDraws rackDraws forkliftDraws
    palletDraws targetDraw
  { scene_index := scene_index
    warehouse_dimensions := dims
    lighting_conditions :=
      { ambient_color := ambient
        num_lights := (assets.filter Entity.isLight).length }
    objects := assets.filterMap toSceneObjectRecord }

/-! ## Camera rig sampler (`setup_cameras`) -/

/-- One pose produced by `setup_cameras` (orientation is implicit via the
`look_at` target handed to the renderer). -/
structure CameraPose where
  position : ℝ × ℝ × ℝ
  focal_length : ℝ
  min_render_distance : ℝ
  max_render_distance : ℝ

/-- The camera built for angle `angleDeg` (degrees) and ring radius `d`,
with the per-camera jitter and focal-length draws `jv` and `fv`:
x and y on the ring around the target, z jittered then clamped to 0.1. -/
noncomputable def ringCamera (target : ℝ × ℝ × ℝ) (angleDeg d jv fv : ℝ) : CameraPose :=
  { position :=
      ( target.1 + d * Real.cos (radians angleDeg)
      , target.2.1 + d * Real.sin (radians angleDeg)
      , max (target.2.2 + jv) 0.1 )
    focal_length := fv
    min_render_distance := 0.1
    max_render_distance := 100.0 }

/-- The inner loop of `setup_cameras`: one camera per remaining distance,
at angle index `i`; `j` counts the distances already consumed so that the
random draws for the camera at ring slot `(i, j)` are `jitter i j` and
`focal i j`. -/
noncomputable def ringCameras (target : ℝ × ℝ × ℝ) (angleDeg : ℝ) (i : ℕ)
    (jitter focal : ℕ → ℕ → ℝ) : List ℝ → ℕ → List CameraPose
  | [], _ => []
  | d :: ds, j =>
    ringCamera target angleDeg d (jitter i j) (focal i j) ::
      ringCameras target angleDeg i jitter focal ds (j + 1)

/-- The outer loop of `setup_cameras` over
`angle in ((360 / num_angles) * i for i in range(k))`, appending each
ring in angle order. -/
noncomputable def anglesLoop (target : ℝ × ℝ × ℝ) (num_angles : ℕ)
    (distances : List ℝ) (jitter focal : ℕ → ℕ → ℝ) : ℕ → List CameraPose
  | 0 => []
  | k + 1 =>
    anglesLoop target num_angles distances jitter focal k ++
      ringCameras target ((360 / (num_angles : ℝ)) * k) k jitter focal distances 0

/-- `setup_cameras`: the full angle-outer/distance-inner list of poses. -/
noncomputable def setup_cameras (target : ℝ × ℝ × ℝ) (num_angles : ℕ)
    (distances : List ℝ) (jitter focal : ℕ → ℕ → ℝ) : List CameraPose :=
  anglesLoop target num_angles distances jitter focal num_angles

/-! ## Per-camera metadata writer (`save_render_data`) -/

/-- `f"scene_{scene_index}"`. -/
def scene_dir_name (i : ℕ) : String := "scene_" ++ toString i

/-- `f"cam_{camera_index}"`. -/
def cam_dir_name (j : ℕ) : String := "cam_" ++ toString j

/-- The absolute path `save_render_data` writes the RGBA image to:
`os.path.join(output_dir, f"scene_{i}", f"cam_{j}", "rgba.png")`. -/
def rgba_write_path (output_dir : String) (i j : ℕ) : String :=
  pjoin (pjoin (pjoin output_dir (scene_dir_name i)) (cam_dir_name j)) "rgba.png"

/-- The absolute path the depth image is written to. -/
def depth_write_path (output_dir : String) (i j : ℕ) : String :=
  pjoin (pjoin (pjoin output_dir (scene_dir_name i)) (cam_dir_name j)) "depth.tiff"

/-- Componentwise `tuple(p - c for p, c in zip(pallet.position, camera.position))`. -/
noncomputable def vsub (p c : ℝ × ℝ × ℝ) : ℝ × ℝ × ℝ :=
  (p.1 - c.1, p.2.1 - c.2.1, p.2.2 - c.2.2)

/-- The `camera_metadata` dictionary written by `save_render_data`. -/
structure CameraMetadataDocument where
  camera_index : ℕ
  position : ℝ × ℝ × ℝ
  relative_position_xyz : ℝ × ℝ × ℝ
  relative_orientation_xyz : ℝ × ℝ × ℝ
  focal_length : ℝ
  rgba_path : String
  depth_path : String

/-- The metadata part of `save_render_data`: relative position is
pallet minus camera, relative orientation is
`Rotation.from_quat(camera.quaternion).inv() * Rotation.from_quat(pallet.quaternion)`
serialized with `as_euler("xyz", degrees=True)` (both `from_quat` calls
misread the scalar-first kubric components as scalar-last, hence the two
`permQuat`s), and the two image paths are stored relative to `output_dir`
via `os.path.relpath`. -/
noncomputable def save_render_data_metadata (output_dir : String)
    (scene_index camera_index : ℕ) (camera_position : ℝ × ℝ × ℝ)
    (camera_quaternion : Quat) (camera_focal : ℝ) (pallet_position : ℝ × ℝ × ℝ)
    (pallet_quaternion : Quat) : CameraMetadataDocument :=
  { camera_index := camera_index
    position := camera_position
    relative_position_xyz := vsub pallet_position camera_position
    relative_orientation_xyz :=
      as_euler_xyz (qmul (qconj (permQuat camera_quaternion))
        (permQuat pallet_quaternion)) true
    focal_length := camera_focal
    rgba_path := os_relpath (rgba_write_path output_dir scene_index camera_index)
      output_dir
    depth_path := os_relpath (depth_write_path output_dir scene_index camera_index)
      output_dir }

/-! ## Archival converter paths (`hdf5_convert.process_scene`) -/

/-- The path `process_scene` reads the RGBA image from:
`os.path.join(scene_path, cam_dir, camera_metadata["rgba_path"])` with
`scene_path = os.path.join(data_root, scene_dir)`, `scene_dir = f"scene_{i}"`
and `cam_dir = f"cam_{j}"`. -/
def converter_rgba_read_path (data_root : String) (i j : ℕ) (stored : String) :
    String :=
  pjoin (pjoin (pjoin data_root (scene_dir_name i)) (cam_dir_name j)) stored

/-- The path `process_scene` reads the depth image from. -/
def converter_depth_read_path (data_root : String) (i j : ℕ) (stored : String) :
    String :=
  pjoin (pjoin (pjoin data_root (scene_dir_name i)) (cam_dir_name j)) stored

/-! ## Batch coordinator (`generate_warehouse_scenes`) -/

/-- `future.result()` inside the collection loop: rethrows the job's
exception if the job failed, in the `Except` monad. -/
def future_result {E A : Type} (fut : Except E A) : Except E A := fut

/-- One iteration of the collection loop: `try: future.result() except
Exception as e: logging.error(...)`. A successful job yields its result
(`Sum.inl`), a failed one yields the logged error (`Sum.inr`); the
`tryCatch` is the `try/except` of the source. -/
def process_future {E A : Type} (fut : Except E A) : Except E (A ⊕ E) :=
  tryCatch
    (do
      let a ← future_result fut
      pure (Sum.inl a))
    (fun e => pure (Sum.inr e))

/-- The collection loop over the submitted futures in submission order;
an uncaught exception in an iteration would abort the whole fold. -/
def run_batch {E A : Type} : List (Except E A) → Except E (List (A ⊕ E))
  | [] => pure []
  | fut :: rest => do
    let entry ← process_future fut
    let others ← run_batch rest
    pure (entry :: others)

/-- `generate_warehouse_scenes`: submits one `generate_scene` job per scene
index in `range(num_scenes)` and then collects every future. -/
def generate_warehouse_scenes {E A : Type} (jobs : ℕ → Except E A)
    (num_scenes : ℕ) : Except E (List (A ⊕ E)) :=
  run_batch ((List.range num_scenes).map jobs)

/-! ## Texture discovery (`warehouse_utils.discover_textures`)

The filesystem walk is passed in as the list of discovered file paths
(`os.path.join(root, file)` for each walked file), in walk order. -/

/-- One grouped texture set. -/
structure TextureSet where
  color : Option String
  normal : Option String
  roughness : Option String
deriving DecidableEq

/-- The three regex roles, in the iteration order of the `patterns` dict. -/
inductive Role where
  | color
  | normal
  | roughness
deriving DecidableEq

/-- Whether `needle` occurs as a contiguous substring of `hay`. -/
def containsSub (needle : List Char) : List Char → Bool
  | [] => needle.isEmpty
  | c :: rest => needle.isPrefixOf (c :: rest) || containsSub needle rest

/-- `str.lower()` of an ASCII path, at the character-list level. -/
def lowerData (s : String) : List Char := s.data.map Char.toLower

/-- `re.search` of a lowercase literal pattern with `re.IGNORECASE`,
applied (as in the source) to the full joined path. -/
def searchCI (pat : String) (s : String) : Bool :=
  containsSub pat.data (lowerData s)

/-- Whether the path matches the role's pattern:
`(color|albedo)`, `(normal)` or `(roughness)`, case-insensitive. -/
def matchesRole : Role → String → Bool
  | .color, f => searchCI "color" f || searchCI "albedo" f
  | .normal, f => searchCI "normal" f
  | .roughness, f => searchCI "roughness" f

/-- `os.path.basename(file).split("_")[0]`: the grouping key. -/
def texKey (f : String) : String :=
  String.mk ((basename f).data.takeWhile (fun c => c ≠ '_'))

/-- `file.lower().endswith((".jpg", ".png"))`. -/
def isTextureFile (f : String) : Bool :=
  ".jpg".data.isSuffixOf (lowerData f) || ".png".data.isSuffixOf (lowerData f)

/-- Setting one role slot of a grouped dictionary entry. -/
def setRole (t : TextureSet) : Role → String → TextureSet
  | .color, f => { t with color := some f }
  | .normal, f => { t with normal := some f }
  | .roughness, f => { t with roughness := some f }

/-- `grouped_textures[base_name][key] = file` on an insertion-ordered
dictionary: update the existing group in place, or append a new group. -/
def insertTexture (key : String) (r : Role) (f : String) :
    List (String × TextureSet) → List (String × TextureSet)
  | [] => [(key, setRole ⟨none, none, none⟩ r f)]
  | (k, t) :: rest =>
    if k = key then (k, setRole t r f) :: rest
    else (k, t) :: insertTexture key r f rest

/-- The body of the file loop: try each pattern in dict order and insert
the file under its base-name key for every pattern it matches. -/
def classify_file (groups : List (String × TextureSet)) (f : String) :
    List (String × TextureSet) :=
  let g1 := if matchesRole .color f then insertTexture (texKey f) .color f groups
    else groups
  let g2 := if matchesRole .normal f then insertTexture (texKey f) .normal f g1
    else g1
  if matchesRole .roughness f then insertTexture (texKey f) .roughness f g2 else g2

/-- The `grouped_textures` dictionary after the file loop. -/
def grouped_textures (texture_files : List String) : List (String × TextureSet) :=
  texture_files.foldl classify_file []

/-- `discover_textures` over the walked file list: keep the image files,
group them, and emit the groups in insertion order (each group already
holds exactly the `color`/`normal`/`roughness` slots with `.get` giving
`None` for unmatched roles). -/
def discover_textures (walked_files : List String) : List TextureSet :=
  (grouped_textures (walked_files.filter isTextureFile)).map Prod.snd

/-! ## Helper lemmas: rotation matrices -/

theorem rotX_transpose (a : ℝ) :
    (rotX a).transpose = Matrix.of ![![1, 0, 0], ![0, Real.cos a, Real.sin a],
      ![0, -Real.sin a, Real.cos a]] := by
  ext i j
  fin_cases i <;> fin_cases j <;> rfl

theorem rotY_transpose (b : ℝ) :
    (rotY b).transpose = Matrix.of ![![Real.cos b, 0, -Real.sin b], ![0, 1, 0],
      ![Real.sin b, 0, Real.cos b]] := by
  ext i j
  fin_cases i <;> fin_cases j <;> rfl

theorem rotZ_transpose (c : ℝ) :
    (rotZ c).transpose = Matrix.of ![![Real.cos c, Real.sin c, 0],
      ![-Real.sin c, Real.cos c, 0], ![0, 0, 1]] := by
  ext i j
  fin_cases i <;> fin_cases j <;> rfl

theorem rotX_orth (a : ℝ) : (rotX a).transpose * rotX a = 1 := by
  rw [rotX_transpose]
  show (!![1, 0, 0; 0, Real.cos a, Real.sin a; 0, -Real.sin a, Real.cos a] *
    !![1, 0, 0; 0, Real.cos a, -Real.sin a; 0, Real.sin a, Real.cos a]) = 1
  rw [Matrix.mul_fin_three, Matrix.one_fin_three]
  ext i j
  fin_cases i <;> fin_cases j <;>
    simp [Matrix.vecHead, Matrix.vecTail] <;> nlinarith [Real.sin_sq_add_cos_sq a]

theorem rotY_orth (b : ℝ) : (rotY b).transpose * rotY b = 1 := by
  rw [rotY_transpose]
  show (!![Real.cos b, 0, -Real.sin b; 0, 1, 0; Real.sin b, 0, Real.cos b] *
    !![Real.cos b, 0, Real.sin b; 0, 1, 0; -Real.sin b, 0, Real.cos b]) = 1
  rw [Matrix.mul_fin_three, Matrix.one_fin_three]
  ext i j
  fin_cases i <;> fin_cases j <;>
    simp [Matrix.vecHead, Matrix.vecTail] <;> nlinarith [Real.sin_sq_add_cos_sq b]

theorem rotZ_orth (c : ℝ) : (rotZ c).transpose * rotZ c = 1 := by
  rw [rotZ_transpose]
  show (!![Real.cos c, Real.sin c, 0; -Real.sin c, Real.cos c, 0; 0, 0, 1] *
    !![Real.cos c, -Real.sin c, 0; Real.sin c, Real.cos c, 0; 0, 0, 1]) = 1
  rw [Matrix.mul_fin_three, Matrix.one_fin_three]
  ext i j
  fin_cases i <;> fin_cases j <;>
    simp [Matrix.vecHead, Matrix.vecTail] <;> nlinarith [Real.sin_sq_add_cos_sq c]

theorem rotX_det (a : ℝ) : (rotX a).det = 1 := by
  have h : rotX a
      = !![1, 0, 0; 0, Real.cos a, -Real.sin a; 0, Real.sin a, Real.cos a] := rfl
  rw [h, Matrix.det_fin_three]
  simp
  nlinarith [Real.sin_sq_add_cos_sq a]

theorem rotY_det (b : ℝ) : (rotY b).det = 1 := by
  have h : rotY b
      = !![Real.cos b, 0, Real.sin b; 0, 1, 0; -Real.sin b, 0, Real.cos b] := rfl
  rw [h, Matrix.det_fin_three]
  simp
  nlinarith [Real.sin_sq_add_cos_sq b]

theorem rotZ_det (c : ℝ) : (rotZ c).det = 1 := by
  have h : rotZ c
      = !![Real.cos c, -Real.sin c, 0; Real.sin c, Real.cos c, 0; 0, 0, 1] := rfl
  rw [h, Matrix.det_fin_three]
  simp
  nlinarith [Real.sin_sq_add_cos_sq c]

theorem mul_orth {A B : Matrix (Fin 3) (Fin 3) ℝ} (hA : A.transpose * A = 1)
    (hB : B.transpose * B = 1) : (A * B).transpose * (A * B) = 1 := by
  rw [Matrix.transpose_mul]
  rw [Matrix.mul_assoc]
  rw [← Matrix.mul_assoc A.transpose A B]
  rw [hA, Matrix.one_mul, hB]

theorem from_euler_orth (a b c : ℝ) :
    (from_euler_xyz a b c).transpose * from_euler_xyz a b c = 1 :=
  mul_orth (mul_orth (rotZ_orth c) (rotY_orth b)) (rotX_orth a)

theorem from_euler_det (a b c : ℝ) : (from_euler_xyz a b c).det = 1 := by
  unfold from_euler_xyz
  rw [Matrix.det_mul, Matrix.det_mul, rotX_det, rotY_det, rotZ_det]
  norm_num

theorem topLeft3_ctm (position euler_angles : Fin 3 → ℝ) :
    topLeft3 (create_transformation_matrix position euler_angles)
      = from_euler_xyz (radians (euler_angles 0)) (radians (euler_angles 1))
          (radians (euler_angles 2)) := by
  ext i j
  fin_cases i <;> fin_cases j <;> rfl

/-! ## Helper lemmas: concrete Euler evaluation -/

theorem jiggled_zero :
    jiggledQuat 0 0 0 = ⟨Real.cos (Real.pi / 4), Real.sin (Real.pi / 4), 0, 0⟩ := by
  unfold jiggledQuat quatAxisAngle qmul
  simp [Real.cos_zero, Real.sin_zero]
  rw [show Real.pi / 2 / 2 = Real.pi / 4 by ring]
  exact ⟨Real.cos_pi_div_four, Real.sin_pi_div_four⟩

theorem quatToMatrix_jiggled_zero :
    quatToMatrix (jiggledQuat 0 0 0)
      = Matrix.of ![![1, 0, 0], ![0, 0, -1], ![0, 1, 0]] := by
  rw [jiggled_zero]
  unfold quatToMatrix
  have hs : Real.sin (Real.pi / 4) = Real.sqrt 2 / 2 := Real.sin_pi_div_four
  have hc : Real.cos (Real.pi / 4) = Real.sqrt 2 / 2 := Real.cos_pi_div_four
  have h2 : Real.sqrt 2 * Real.sqrt 2 = 2 := Real.mul_self_sqrt (by norm_num)
  ext i j
  fin_cases i <;> fin_cases j <;> simp [hs, hc] <;> nlinarith [h2]

theorem as_euler_jiggled_zero_rad :
    as_euler_xyz (jiggledQuat 0 0 0) false = (Real.pi / 2, 0, 0) := by
  have e21 : quatToMatrix (jiggledQuat 0 0 0) 2 1 = 1 := by
    rw [quatToMatrix_jiggled_zero]; rfl
  have e22 : quatToMatrix (jiggledQuat 0 0 0) 2 2 = 0 := by
    rw [quatToMatrix_jiggled_zero]; rfl
  have e20 : quatToMatrix (jiggledQuat 0 0 0) 2 0 = 0 := by
    rw [quatToMatrix_jiggled_zero]; rfl
  have e10 : quatToMatrix (jiggledQuat 0 0 0) 1 0 = 0 := by
    rw [quatToMatrix_jiggled_zero]; rfl
  have e00 : quatToMatrix (jiggledQuat 0 0 0) 0 0 = 1 := by
    rw [quatToMatrix_jiggled_zero]; rfl
  simp only [as_euler_xyz, e21, e22, e20, e10, e00, Bool.false_eq_true, if_false]
  refine Prod.ext ?_ (Prod.ext ?_ ?_)
  · show atan2 1 0 = Real.pi / 2
    unfold atan2
    rw [show ((⟨0, 1⟩ : ℂ)) = Complex.I from by apply Complex.ext <;> simp]
    exact Complex.arg_I
  · show Real.arcsin (-0) = 0
    rw [neg_zero]
    exact Real.arcsin_zero
  · show atan2 0 1 = 0
    unfold atan2
    rw [show ((⟨1, 0⟩ : ℂ)) = (1 : ℂ) from by apply Complex.ext <;> simp]
    exact Complex.arg_one

theorem as_euler_jiggled_zero_deg :
    as_euler_xyz (jiggledQuat 0 0 0) true = (90, 0, 0) := by
  have e21 : quatToMatrix (jiggledQuat 0 0 0) 2 1 = 1 := by
    rw [quatToMatrix_jiggled_zero]; rfl
  have e22 : quatToMatrix (jiggledQuat 0 0 0) 2 2 = 0 := by
    rw [quatToMatrix_jiggled_zero]; rfl
  have e20 : quatToMatrix (jiggledQuat 0 0 0) 2 0 = 0 := by
    rw [quatToMatrix_jiggled_zero]; rfl
  have e10 : quatToMatrix (jiggledQuat 0 0 0) 1 0 = 0 := by
    rw [quatToMatrix_jiggled_zero]; rfl
  have e00 : quatToMatrix (jiggledQuat 0 0 0) 0 0 = 1 := by
    rw [quatToMatrix_jiggled_zero]; rfl
  simp only [as_euler_xyz, e21, e22, e20, e10, e00, if_true]
  refine Prod.ext ?_ (Prod.ext ?_ ?_)
  · show atan2 1 0 * (180 / Real.pi) = 90
    unfold atan2
    rw [show ((⟨0, 1⟩ : ℂ)) = Complex.I from by apply Complex.ext <;> simp]
    rw [Complex.arg_I]
    field_simp
    ring
  · show Real.arcsin (-0) * (180 / Real.pi) = 0
    rw [neg_zero, Real.arcsin_zero, zero_mul]
  · show atan2 0 1 * (180 / Real.pi) = 0
    unfold atan2
    rw [show ((⟨1, 0⟩ : ℂ)) = (1 : ℂ) from by apply Complex.ext <;> simp]
    rw [Complex.arg_one, zero_mul]

/-- The identity quaternion serializes to Euler angles (0, 0, 0). -/
theorem as_euler_qid : as_euler_xyz qid false = (0, 0, 0) := by
  have e21 : quatToMatrix qid 2 1 = 0 := by norm_num [quatToMatrix, qid, Matrix.vecHead, Matrix.vecTail]
  have e22 : quatToMatrix qid 2 2 = 1 := by norm_num [quatToMatrix, qid, Matrix.vecHead, Matrix.vecTail]
  have e20 : quatToMatrix qid 2 0 = 0 := by norm_num [quatToMatrix, qid, Matrix.vecHead, Matrix.vecTail]
  have e10 : quatToMatrix qid 1 0 = 0 := by norm_num [quatToMatrix, qid, Matrix.vecHead, Matrix.vecTail]
  have e00 : quatToMatrix qid 0 0 = 1 := by norm_num [quatToMatrix, qid, Matrix.vecHead, Matrix.vecTail]
  simp only [as_euler_xyz, e21, e22, e20, e10, e00, Bool.false_eq_true, if_false]
  have harg : atan2 0 1 = 0 := by
    unfold atan2
    rw [show ((⟨1, 0⟩ : ℂ)) = (1 : ℂ) from by apply Complex.ext <;> simp]
    exact Complex.arg_one
  refine Prod.ext ?_ (Prod.ext ?_ ?_)
  · exact harg
  · show Real.arcsin (-0) = 0
    rw [neg_zero]; exact Real.arcsin_zero
  · exact harg

/-- The identity quaternion misread by scipy becomes (0, 1, 0, 0), a
180-degree rotation about x, which serializes to (pi, 0, 0) radians. -/
theorem as_euler_permqid : as_euler_xyz (permQuat qid) false = (Real.pi, 0, 0) := by
  have e21 : quatToMatrix (permQuat qid) 2 1 = 0 := by
    norm_num [quatToMatrix, permQuat, qid, Matrix.vecHead, Matrix.vecTail]
  have e22 : quatToMatrix (permQuat qid) 2 2 = -1 := by
    norm_num [quatToMatrix, permQuat, qid, Matrix.vecHead, Matrix.vecTail]
  have e20 : quatToMatrix (permQuat qid) 2 0 = 0 := by
    norm_num [quatToMatrix, permQuat, qid, Matrix.vecHead, Matrix.vecTail]
  have e10 : quatToMatrix (permQuat qid) 1 0 = 0 := by
    norm_num [quatToMatrix, permQuat, qid, Matrix.vecHead, Matrix.vecTail]
  have e00 : quatToMatrix (permQuat qid) 0 0 = 1 := by
    norm_num [quatToMatrix, permQuat, qid, Matrix.vecHead, Matrix.vecTail]
  simp only [as_euler_xyz, e21, e22, e20, e10, e00, Bool.false_eq_true, if_false]
  refine Prod.ext ?_ (Prod.ext ?_ ?_)
  · show atan2 0 (-1) = Real.pi
    unfold atan2
    rw [show ((⟨-1, 0⟩ : ℂ)) = (-1 : ℂ) from by apply Complex.ext <;> simp]
    exact Complex.arg_neg_one
  · show Real.arcsin (-0) = 0
    rw [neg_zero]; exact Real.arcsin_zero
  · show atan2 0 1 = 0
    unfold atan2
    rw [show ((⟨1, 0⟩ : ℂ)) = (1 : ℂ) from by apply Complex.ext <;> simp]
    exact Complex.arg_one

/-- The misread of the base 90-degree-about-x orientation. -/
theorem permQuat_jiggled_zero :
    permQuat (jiggledQuat 0 0 0)
      = ⟨0, Real.cos (Real.pi / 4), Real.sin (Real.pi / 4), 0⟩ := by
  rw [jiggled_zero]
  rfl

theorem quatToMatrix_perm_jiggled_zero :
    quatToMatrix (permQuat (jiggledQuat 0 0 0))
      = Matrix.of ![![0, 1, 0], ![1, 0, 0], ![0, 0, -1]] := by
  rw [permQuat_jiggled_zero]
  unfold quatToMatrix
  have hs : Real.sin (Real.pi / 4) = Real.sqrt 2 / 2 := Real.sin_pi_div_four
  have hc : Real.cos (Real.pi / 4) = Real.sqrt 2 / 2 := Real.cos_pi_div_four
  have h2 : Real.sqrt 2 * Real.sqrt 2 = 2 := Real.mul_self_sqrt (by norm_num)
  ext i j
  fin_cases i <;> fin_cases j <;> simp [hs, hc, Matrix.vecHead, Matrix.vecTail] <;>
    nlinarith [h2]

/-- What the program stores for the first rack: the Euler radians of the
misread quaternion, (pi, 0, pi/2). -/
theorem as_euler_perm_jiggled_zero_rad :
    as_euler_xyz (permQuat (jiggledQuat 0 0 0)) false = (Real.pi, 0, Real.pi / 2) := by
  have e21 : quatToMatrix (permQuat (jiggledQuat 0 0 0)) 2 1 = 0 := by
    rw [quatToMatrix_perm_jiggled_zero]; rfl
  have e22 : quatToMatrix (permQuat (jiggledQuat 0 0 0)) 2 2 = -1 := by
    rw [quatToMatrix_perm_jiggled_zero]; rfl
  have e20 : quatToMatrix (permQuat (jiggledQuat 0 0 0)) 2 0 = 0 := by
    rw [quatToMatrix_perm_jiggled_zero]; rfl
  have e10 : quatToMatrix (permQuat (jiggledQuat 0 0 0)) 1 0 = 1 := by
    rw [quatToMatrix_perm_jiggled_zero]; rfl
  have e00 : quatToMatrix (permQuat (jiggledQuat 0 0 0)) 0 0 = 0 := by
    rw [quatToMatrix_perm_jiggled_zero]; rfl
  simp only [as_euler_xyz, e21, e22, e20, e10, e00, Bool.false_eq_true, if_false]
  refine Prod.ext ?_ (Prod.ext ?_ ?_)
  · show atan2 0 (-1) = Real.pi
    unfold atan2
    rw [show ((⟨-1, 0⟩ : ℂ)) = (-1 : ℂ) from by apply Complex.ext <;> simp]
    exact Complex.arg_neg_one
  · show Real.arcsin (-0) = 0
    rw [neg_zero]; exact Real.arcsin_zero
  · show atan2 1 0 = Real.pi / 2
    unfold atan2
    rw [show ((⟨0, 1⟩ : ℂ)) = Complex.I from by apply Complex.ext <;> simp]
    exact Complex.arg_I

/-- The degree counterpart of the stored triple: (180, 0, 90). -/
theorem as_euler_perm_jiggled_zero_deg :
    as_euler_xyz (permQuat (jiggledQuat 0 0 0)) true = (180, 0, 90) := by
  have e21 : quatToMatrix (permQuat (jiggledQuat 0 0 0)) 2 1 = 0 := by
    rw [quatToMatrix_perm_jiggled_zero]; rfl
  have e22 : quatToMatrix (permQuat (jiggledQuat 0 0 0)) 2 2 = -1 := by
    rw [quatToMatrix_perm_jiggled_zero]; rfl
  have e20 : quatToMatrix (permQuat (jiggledQuat 0 0 0)) 2 0 = 0 := by
    rw [quatToMatrix_perm_jiggled_zero]; rfl
  have e10 : quatToMatrix (permQuat (jiggledQuat 0 0 0)) 1 0 = 1 := by
    rw [quatToMatrix_perm_jiggled_zero]; rfl
  have e00 : quatToMatrix (permQuat (jiggledQuat 0 0 0)) 0 0 = 0 := by
    rw [quatToMatrix_perm_jiggled_zero]; rfl
  simp only [as_euler_xyz, e21, e22, e20, e10, e00, if_true]
  refine Prod.ext ?_ (Prod.ext ?_ ?_)
  · show atan2 0 (-1) * (180 / Real.pi) = 180
    unfold atan2
    rw [show ((⟨-1, 0⟩ : ℂ)) = (-1 : ℂ) from by apply Complex.ext <;> simp]
    rw [Complex.arg_neg_one]
    field_simp
  · show Real.arcsin (-0) * (180 / Real.pi) = 0
    rw [neg_zero, Real.arcsin_zero, zero_mul]
  · show atan2 1 0 * (180 / Real.pi) = 90
    unfold atan2
    rw [show ((⟨0, 1⟩ : ℂ)) = Complex.I from by apply Complex.ext <;> simp]
    rw [Complex.arg_I]
    field_simp
    ring

/-- The identity quaternion is a left unit for the Hamilton product. -/
theorem qid_mul (q : Quat) : qmul qid q = q := by
  cases q with
  | mk a b c d => simp [qmul, qid]

/-- The relative rotation the code computes for an identity camera and the
base 90-degree-about-x pallet: both quaternions misread, the product is a
rotation of -90 degrees about z. -/
theorem relquat_id_jiggled :
    qmul (qconj (permQuat qid)) (permQuat (jiggledQuat 0 0 0))
      = ⟨Real.cos (Real.pi / 4), 0, 0, -Real.sin (Real.pi / 4)⟩ := by
  rw [permQuat_jiggled_zero]
  simp only [permQuat, qconj, qmul, qid, Quat.mk.injEq]
  norm_num

theorem quatToMatrix_relquat :
    quatToMatrix ⟨Real.cos (Real.pi / 4), 0, 0, -Real.sin (Real.pi / 4)⟩
      = Matrix.of ![![0, 1, 0], ![-1, 0, 0], ![0, 0, 1]] := by
  unfold quatToMatrix
  have hs : Real.sin (Real.pi / 4) = Real.sqrt 2 / 2 := Real.sin_pi_div_four
  have hc : Real.cos (Real.pi / 4) = Real.sqrt 2 / 2 := Real.cos_pi_div_four
  have h2 : Real.sqrt 2 * Real.sqrt 2 = 2 := Real.mul_self_sqrt (by norm_num)
  ext i j
  fin_cases i <;> fin_cases j <;> simp [hs, hc, Matrix.vecHead, Matrix.vecTail] <;>
    nlinarith [h2]

/-- In degrees, the relative orientation the code stores for that pair is
(0, 0, -90). -/
theorem as_euler_relquat_deg :
    as_euler_xyz ⟨Real.cos (Real.pi / 4), 0, 0, -Real.sin (Real.pi / 4)⟩ true
      = (0, 0, -90) := by
  have e21 : quatToMatrix ⟨Real.cos (Real.pi / 4), 0, 0, -Real.sin (Real.pi / 4)⟩
      2 1 = 0 := by rw [quatToMatrix_relquat]; rfl
  have e22 : quatToMatrix ⟨Real.cos (Real.pi / 4), 0, 0, -Real.sin (Real.pi / 4)⟩
      2 2 = 1 := by rw [quatToMatrix_relquat]; rfl
  have e20 : quatToMatrix ⟨Real.cos (Real.pi / 4), 0, 0, -Real.sin (Real.pi / 4)⟩
      2 0 = 0 := by rw [quatToMatrix_relquat]; rfl
  have e10 : quatToMatrix ⟨Real.cos (Real.pi / 4), 0, 0, -Real.sin (Real.pi / 4)⟩
      1 0 = -1 := by rw [quatToMatrix_relquat]; rfl
  have e00 : quatToMatrix ⟨Real.cos (Real.pi / 4), 0, 0, -Real.sin (Real.pi / 4)⟩
      0 0 = 0 := by rw [quatToMatrix_relquat]; rfl
  simp only [as_euler_xyz, e21, e22, e20, e10, e00, if_true]
  refine Prod.ext ?_ (Prod.ext ?_ ?_)
  · show atan2 0 1 * (180 / Real.pi) = 0
    unfold atan2
    rw [show ((⟨1, 0⟩ : ℂ)) = (1 : ℂ) from by apply Complex.ext <;> simp]
    rw [Complex.arg_one, zero_mul]
  · show Real.arcsin (-0) * (180 / Real.pi) = 0
    rw [neg_zero, Real.arcsin_zero, zero_mul]
  · show atan2 (-1) 0 * (180 / Real.pi) = -90
    unfold atan2
    rw [show ((⟨0, -1⟩ : ℂ)) = -Complex.I from by apply Complex.ext <;> simp]
    rw [Complex.arg_neg_I]
    field_simp
    ring

/-! ## Helper lemmas: camera rig -/

theorem ringCameras_length (target : ℝ × ℝ × ℝ) (angleDeg : ℝ) (i : ℕ)
    (jitter focal : ℕ → ℕ → ℝ) (ds : List ℝ) (j : ℕ) :
    (ringCameras target angleDeg i jitter focal ds j).length = ds.length := by
  induction ds generalizing j with
  | nil => rfl
  | cons d rest ih => simp [ringCameras, ih]

theorem anglesLoop_length (target : ℝ × ℝ × ℝ) (n : ℕ) (distances : List ℝ)
    (jitter focal : ℕ → ℕ → ℝ) (k : ℕ) :
    (anglesLoop target n distances jitter focal k).length = k * distances.length := by
  induction k with
  | zero => simp [anglesLoop]
  | succ m ih =>
    simp [anglesLoop, ih, ringCameras_length, Nat.succ_mul]

theorem ringCameras_get (target : ℝ × ℝ × ℝ) (angleDeg : ℝ) (i : ℕ)
    (jitter focal : ℕ → ℕ → ℝ) (ds : List ℝ) (j k : ℕ) (hk : k < ds.length)
    (h : k < (ringCameras target angleDeg i jitter focal ds j).length) :
    (ringCameras target angleDeg i jitter focal ds j).get ⟨k, h⟩
      = ringCamera target angleDeg (ds.get ⟨k, hk⟩) (jitter i (j + k))
          (focal i (j + k)) := by
  induction ds generalizing j k with
  | nil => exact absurd hk (by simp)
  | cons d rest ih =>
    cases k with
    | zero => simp [ringCameras]
    | succ m =>
      have hm : m < rest.length := by simpa using hk
      have h2 : m < (ringCameras target angleDeg i jitter focal rest (j + 1)).length := by
        rw [ringCameras_length]; exact hm
      simp only [ringCameras, List.get_cons_succ]
      rw [ih (j + 1) m hm h2]
      rw [show j + 1 + m = j + (m + 1) from by omega]

theorem get_append_left_of_lt {α : Type} (l₁ l₂ : List α) (n : ℕ)
    (h1 : n < l₁.length) (h : n < (l₁ ++ l₂).length) :
    (l₁ ++ l₂).get ⟨n, h⟩ = l₁.get ⟨n, h1⟩ := by
  induction l₁ generalizing n with
  | nil => simp at h1
  | cons a t ih =>
    cases n with
    | zero => rfl
    | succ m => exact ih m (by simpa using h1) (by simpa using h)

theorem get_append_right_of_le {α : Type} (l₁ l₂ : List α) (n : ℕ)
    (hge : l₁.length ≤ n) (h : n < (l₁ ++ l₂).length)
    (h2 : n - l₁.length < l₂.length) :
    (l₁ ++ l₂).get ⟨n, h⟩ = l₂.get ⟨n - l₁.length, h2⟩ := by
  induction l₁ generalizing n with
  | nil => rfl
  | cons a t ih =>
    cases n with
    | zero => simp at hge
    | succ m =>
      have hm : m - t.length < l₂.length := by simpa using h2
      have hrec := ih m (by simpa using hge) (by simpa using h) hm
      show (t ++ l₂).get ⟨m, _⟩ = l₂.get ⟨m + 1 - (a :: t).length, h2⟩
      rw [hrec]
      have hfin : (⟨m - t.length, hm⟩ : Fin l₂.length)
          = ⟨m + 1 - (a :: t).length, h2⟩ := by
        apply Fin.ext
        simp
      rw [hfin]

theorem anglesLoop_get (target : ℝ × ℝ × ℝ) (n : ℕ) (distances : List ℝ)
    (jitter focal : ℕ → ℕ → ℝ) (k i j : ℕ) (hi : i < k) (hj : j < distances.length)
    (h : i * distances.length + j
      < (anglesLoop target n distances jitter focal k).length) :
    (anglesLoop target n distances jitter focal k).get ⟨i * distances.length + j, h⟩
      = ringCamera target ((360 / (n : ℝ)) * i) (distances.get ⟨j, hj⟩)
          (jitter i j) (focal i j) := by
  induction k with
  | zero => omega
  | succ m ih =>
    show (anglesLoop target n distances jitter focal m ++
        ringCameras target ((360 / (n : ℝ)) * m) m jitter focal distances 0).get
          ⟨i * distances.length + j, h⟩ = _
    rcases Nat.lt_succ_iff_lt_or_eq.mp hi with hlt | heq
    · have hidx : i * distances.length + j
          < (anglesLoop target n distances jitter focal m).length := by
        rw [anglesLoop_length]
        calc i * distances.length + j
            < i * distances.length + distances.length := by omega
          _ = (i + 1) * distances.length := by ring
          _ ≤ m * distances.length := Nat.mul_le_mul_right _ hlt
      rw [get_append_left_of_lt _ _ _ hidx h]
      exact ih hlt hidx
    · subst heq
      have hlen : (anglesLoop target n distances jitter focal i).length
          = i * distances.length := anglesLoop_length _ _ _ _ _ _
      have hge : (anglesLoop target n distances jitter focal i).length
          ≤ i * distances.length + j := by omega
      have hk2 : i * distances.length + j -
          (anglesLoop target n distances jitter focal i).length = j := by omega
      have hj2 : i * distances.length + j -
            (anglesLoop target n distances jitter focal i).length
          < (ringCameras target ((360 / (n : ℝ)) * i) i jitter focal
              distances 0).length := by
        rw [hk2, ringCameras_length]; exact hj
      rw [get_append_right_of_le _ _ _ hge h hj2]
      rw [ringCameras_get target ((360 / (n : ℝ)) * i) i jitter focal distances 0
        _ (by rw [hk2]; exact hj) hj2]
      congr 1 <;> simp [hk2]

theorem ringCameras_z (target : ℝ × ℝ × ℝ) (angleDeg : ℝ) (i : ℕ)
    (jitter focal : ℕ → ℕ → ℝ) (ds : List ℝ) (j : ℕ) :
    ∀ cam ∈ ringCameras target angleDeg i jitter focal ds j,
      (0.1 : ℝ) ≤ cam.position.2.2 := by
  induction ds generalizing j with
  | nil => intro cam hc; simp [ringCameras] at hc
  | cons d rest ih =>
    intro cam hc
    rcases List.mem_cons.mp hc with h | h
    · subst h
      exact le_max_right _ _
    · exact ih (j + 1) cam h

theorem anglesLoop_z (target : ℝ × ℝ × ℝ) (n : ℕ) (distances : List ℝ)
    (jitter focal : ℕ → ℕ → ℝ) (k : ℕ) :
    ∀ cam ∈ anglesLoop target n distances jitter focal k,
      (0.1 : ℝ) ≤ cam.position.2.2 := by
  induction k with
  | zero => intro cam hc; simp [anglesLoop] at hc
  | succ m ih =>
    intro cam hc
    rcases List.mem_append.mp hc with h | h
    · exact ih cam h
    · exact ringCameras_z _ _ _ _ _ _ _ cam h

/-! ## Helper lemmas: quaternions -/

/-- Composing the camera rotation with the relative rotation
`camera-inverse times pallet` recovers the pallet rotation, for a unit
camera quaternion. -/
theorem qmul_qconj_qmul (c p : Quat) (hc : qnormSq c = 1) :
    qmul c (qmul (qconj c) p) = p := by
  cases c with
  | mk cw cx cy cz =>
    cases p with
    | mk pw px py pz =>
      simp only [qnormSq] at hc
      simp only [qmul, qconj, Quat.mk.injEq]
      refine ⟨?_, ?_, ?_, ?_⟩
      · linear_combination pw * hc
      · linear_combination px * hc
      · linear_combination py * hc
      · linear_combination pz * hc

/-! ## Helper lemmas: paths -/

theorem os_relpath_pjoin (base rest : String) :
    os_relpath (base ++ "/" ++ rest) base = rest := by
  unfold os_relpath
  have h2 : (base ++ "/" ++ rest).data = (base ++ "/").data ++ rest.data :=
    String.data_append _ _
  have hp : ((base ++ "/").data).isPrefixOf ((base ++ "/" ++ rest).data) = true := by
    rw [h2]
    simp [List.isPrefixOf_iff_prefix]
  rw [if_pos hp, h2, List.drop_left]

theorem leaf_write_decomp (out : String) (i j : ℕ) (leaf : String) :
    pjoin (pjoin (pjoin out (scene_dir_name i)) (cam_dir_name j)) leaf
      = out ++ "/" ++ (scene_dir_name i ++ "/" ++ cam_dir_name j ++ "/" ++ leaf) := by
  unfold pjoin
  simp [String.append_assoc]

theorem stored_leaf_path (out : String) (i j : ℕ) (leaf : String) :
    os_relpath (pjoin (pjoin (pjoin out (scene_dir_name i)) (cam_dir_name j)) leaf) out
      = scene_dir_name i ++ "/" ++ cam_dir_name j ++ "/" ++ leaf := by
  rw [leaf_write_decomp]
  exact os_relpath_pjoin out _

theorem converter_leaf_mismatch (out : String) (i j : ℕ) (leaf : String) :
    pjoin (pjoin (pjoin out (scene_dir_name i)) (cam_dir_name j))
        (scene_dir_name i ++ "/" ++ cam_dir_name j ++ "/" ++ leaf)
      ≠ pjoin (pjoin (pjoin out (scene_dir_name i)) (cam_dir_name j)) leaf := by
  intro hEq
  unfold pjoin at hEq
  have := congrArg String.length hEq
  simp only [String.length_append, show ("/" : String).length = 1 from rfl] at this
  have hsd : 0 < (scene_dir_name i).length := by
    unfold scene_dir_name
    simp [String.length_append, show ("scene_" : String).length = 6 from rfl]
  omega

/-! ## Helper lemmas: scene assembly -/

theorem filterMap_record_lights (draws : List LightDraw) :
    (add_random_lighting draws).filterMap toSceneObjectRecord = [] := by
  cases draws with
  | nil => rfl
  | cons d rest =>
    simp [add_random_lighting, toSceneObjectRecord, Entity.isPhysicalObject,
      List.filterMap_cons, List.filterMap_map, Function.comp]

/-- The record emitted for one scattered object. -/
noncomputable def scatteredRecord (d : ObjDraw) : SceneObjectRecord :=
  ⟨basename d.asset, (d.px, d.py, 0), (d.scale, d.scale, d.scale),
    as_euler_xyz (permQuat (jiggledQuat d.jx d.jy d.jz)) false⟩

/-- The record emitted for the target pallet. -/
noncomputable def targetRecord (d : PalletDraw) : SceneObjectRecord :=
  ⟨"target_" ++ basename d.asset, (d.ux / 2, d.uy / 2, d.uz),
    (d.scale, d.scale, d.scale),
    as_euler_xyz (permQuat (jiggledQuat d.jx d.jy d.jz)) false⟩

theorem filterMap_record_objects (draws : List ObjDraw) :
    (add_random_objects draws).filterMap toSceneObjectRecord
      = draws.map scatteredRecord := by
  unfold add_random_objects
  rw [List.filterMap_map]
  apply List.filterMap_eq_map_iff_forall_eq_some.mpr ?_
  intro d _
  rfl

theorem filter_isLight_objects (draws : List ObjDraw) :
    (add_random_objects draws).filter Entity.isLight = [] := by
  unfold add_random_objects
  rw [List.filter_map]
  simp [Function.comp, scatteredObject, Entity.isLight]

theorem filter_isLight_building (l w h : ℝ) :
    (setup_building l w h).filter Entity.isLight = [] := by
  simp [setup_building, Entity.isLight]

theorem filter_isLight_lighting (draws : List LightDraw) :
    (add_random_lighting draws).filter Entity.isLight
      = add_random_lighting draws := by
  cases draws with
  | nil => rfl
  | cons d rest =>
    simp only [add_random_lighting]
    rw [List.filter_cons_of_pos (by rfl)]
    congr 1
    rw [List.filter_map]
    have hall : List.filter
        (Entity.isLight ∘ fun d => Entity.pointLight d.position d.intensity d.color)
        rest = rest := List.filter_eq_self.mpr (fun a _ => rfl)
    rw [hall]

theorem length_lighting (draws : List LightDraw) :
    (add_random_lighting draws).length = draws.length := by
  cases draws with
  | nil => rfl
  | cons d rest => simp [add_random_lighting]

theorem filter_isDirectional_building (l w h : ℝ) :
    (setup_building l w h).filter Entity.isDirectionalLight = [] := by
  simp [setup_building, Entity.isDirectionalLight]

theorem filter_isDirectional_objects (draws : List ObjDraw) :
    (add_random_objects draws).filter Entity.isDirectionalLight = [] := by
  unfold add_random_objects
  rw [List.filter_map]
  simp [Function.comp, scatteredObject, Entity.isDirectionalLight]

theorem filter_isDirectional_lighting (d : LightDraw) (rest : List LightDraw) :
    (add_random_lighting (d :: rest)).filter Entity.isDirectionalLight
      = [Entity.directionalLight d.position (0, 0, 0) d.intensity d.color] := by
  simp only [add_random_lighting]
  rw [List.filter_cons_of_pos (by rfl)]
  rw [List.filter_map]
  have hnil : List.filter
      (Entity.isDirectionalLight ∘ fun d => Entity.pointLight d.position d.intensity
        d.color) rest = [] := by
    rw [List.filter_eq_nil_iff]
    intro a _
    simp [Entity.isDirectionalLight]
  rw [hnil]
  rfl

theorem filter_isPoint_building (l w h : ℝ) :
    (setup_building l w h).filter Entity.isPointLight = [] := by
  simp [setup_building, Entity.isPointLight]

theorem filter_isPoint_objects (draws : List ObjDraw) :
    (add_random_objects draws).filter Entity.isPointLight = [] := by
  unfold add_random_objects
  rw [List.filter_map]
  simp [Function.comp, scatteredObject, Entity.isPointLight]

theorem filter_isPoint_lighting (d : LightDraw) (rest : List LightDraw) :
    (add_random_lighting (d :: rest)).filter Entity.isPointLight
      = rest.map (fun d => Entity.pointLight d.position d.intensity d.color) := by
  simp only [add_random_lighting]
  rw [List.filter_cons_of_neg (by simp [Entity.isPointLight])]
  rw [List.filter_map]
  have hall : List.filter
      (Entity.isPointLight ∘ fun d => Entity.pointLight d.position d.intensity d.color)
      rest = rest := List.filter_eq_self.mpr (fun a _ => rfl)
  rw [hall]

/-- The full objects list written into the scene metadata: floor, the four
walls, the scattered objects of the three categories, then the target. -/
theorem generate_scene_objects (scene_index : ℕ) (dims : Dims)
    (ambient : ℝ × ℝ × ℝ) (lightDraws : List LightDraw)
    (rackDraws forkliftDraws palletDraws : List ObjDraw) (targetDraw : PalletDraw) :
    (generate_scene scene_index dims ambient lightDraws rackDraws forkliftDraws
        palletDraws targetDraw).objects
      = ⟨"floor", (0, 0, -0.1), (dims.length, dims.width, 0.1),
          (Real.pi, 0, 0)⟩ ::
        ⟨"front_wall", (0, -dims.width / 2, dims.height / 2),
          (dims.length, 0.2, dims.height), (Real.pi, 0, 0)⟩ ::
        ⟨"back_wall", (0, dims.width / 2, dims.height / 2),
          (dims.length, 0.2, dims.height), (Real.pi, 0, 0)⟩ ::
        ⟨"left_wall", (-dims.length / 2, 0, dims.height / 2),
          (0.2, dims.width, dims.height), (Real.pi, 0, 0)⟩ ::
        ⟨"right_wall", (dims.length / 2, 0, dims.height / 2),
          (0.2, dims.width, dims.height), (Real.pi, 0, 0)⟩ ::
        (rackDraws.map scatteredRecord ++ forkliftDraws.map scatteredRecord ++
          palletDraws.map scatteredRecord ++ [targetRecord targetDraw]) := by
  unfold generate_scene generate_scene_assets
  simp only [List.filterMap_append, filterMap_record_lights, filterMap_record_objects]
  rw [show (setup_building dims.length dims.width dims.height).filterMap
        toSceneObjectRecord
      = [⟨"floor", (0, 0, -0.1), (dims.length, dims.width, 0.1),
            as_euler_xyz (permQuat qid) false⟩,
         ⟨"front_wall", (0, -dims.width / 2, dims.height / 2),
            (dims.length, 0.2, dims.height), as_euler_xyz (permQuat qid) false⟩,
         ⟨"back_wall", (0, dims.width / 2, dims.height / 2),
            (dims.length, 0.2, dims.height), as_euler_xyz (permQuat qid) false⟩,
         ⟨"left_wall", (-dims.length / 2, 0, dims.height / 2),
            (0.2, dims.width, dims.height), as_euler_xyz (permQuat qid) false⟩,
         ⟨"right_wall", (dims.length / 2, 0, dims.height / 2),
            (0.2, dims.width, dims.height), as_euler_xyz (permQuat qid) false⟩]
      from rfl]
  rw [as_euler_permqid]
  simp [targetRecord, place_pallet, toSceneObjectRecord, Entity.isPhysicalObject,
    Entity.name, Entity.position, Entity.scale, Entity.quaternion]

/-! ## Helper lemmas: texture grouping invariant -/

/-- The grouping invariant: a file stored in any role slot of a group keys
to that group. -/
def GroupInv (k : String) (t : TextureSet) : Prop :=
  ∀ f, (t.color = some f ∨ t.normal = some f ∨ t.roughness = some f) → texKey f = k

theorem setRole_inv (k : String) (t : TextureSet) (r : Role) (f : String)
    (ht : GroupInv k t) (hf : texKey f = k) : GroupInv k (setRole t r f) := by
  intro g hg
  cases r with
  | color =>
    rcases hg with h | h | h
    · have hfg : f = g := by simpa [setRole] using h
      subst hfg; exact hf
    · exact ht g (Or.inr (Or.inl (by simpa [setRole] using h)))
    · exact ht g (Or.inr (Or.inr (by simpa [setRole] using h)))
  | normal =>
    rcases hg with h | h | h
    · exact ht g (Or.inl (by simpa [setRole] using h))
    · have hfg : f = g := by simpa [setRole] using h
      subst hfg; exact hf
    · exact ht g (Or.inr (Or.inr (by simpa [setRole] using h)))
  | roughness =>
    rcases hg with h | h | h
    · exact ht g (Or.inl (by simpa [setRole] using h))
    · exact ht g (Or.inr (Or.inl (by simpa [setRole] using h)))
    · have hfg : f = g := by simpa [setRole] using h
      subst hfg; exact hf

theorem insertTexture_inv (key : String) (r : Role) (f : String)
    (groups : List (String × TextureSet)) (hkey : texKey f = key)
    (hinv : ∀ p ∈ groups, GroupInv p.1 p.2) :
    ∀ p ∈ insertTexture key r f groups, GroupInv p.1 p.2 := by
  induction groups with
  | nil =>
    intro p hp
    simp only [insertTexture, List.mem_singleton] at hp
    subst hp
    refine setRole_inv _ _ _ _ ?_ hkey
    intro g hg
    simp at hg
  | cons q rest ih =>
    obtain ⟨qk, qt⟩ := q
    intro p hp
    rw [insertTexture] at hp
    by_cases hq : qk = key
    · rw [if_pos hq] at hp
      rcases List.mem_cons.mp hp with h | h
      · subst h
        exact setRole_inv _ _ _ _ (hinv (qk, qt) (List.mem_cons_self _ _))
          (by rw [hkey, hq])
      · exact hinv p (List.mem_cons_of_mem _ h)
    · rw [if_neg hq] at hp
      rcases List.mem_cons.mp hp with h | h
      · subst h; exact hinv (qk, qt) (List.mem_cons_self _ _)
      · exact ih (fun p2 hp2 => hinv p2 (List.mem_cons_of_mem _ hp2)) p h

theorem classify_file_inv (groups : List (String × TextureSet)) (f : String)
    (hinv : ∀ p ∈ groups, GroupInv p.1 p.2) :
    ∀ p ∈ classify_file groups f, GroupInv p.1 p.2 := by
  have step : ∀ (r : Role) (gs : List (String × TextureSet)),
      (∀ p ∈ gs, GroupInv p.1 p.2) →
      ∀ p ∈ (if matchesRole r f then insertTexture (texKey f) r f gs else gs),
        GroupInv p.1 p.2 := by
    intro r gs hg
    split
    · exact insertTexture_inv _ _ _ _ rfl hg
    · exact hg
  exact step .roughness _ (step .normal _ (step .color _ hinv))

theorem grouped_textures_inv (files : List String) :
    ∀ p ∈ grouped_textures files, GroupInv p.1 p.2 := by
  suffices h : ∀ groups, (∀ p ∈ groups, GroupInv p.1 p.2) →
      ∀ p ∈ files.foldl classify_file groups, GroupInv p.1 p.2 by
    exact h [] (by simp)
  induction files with
  | nil => intro groups hg; simpa using hg
  | cons f rest ih =>
    intro groups hg
    exact ih _ (classify_file_inv groups f hg)

/-! ## Helper lemmas: batch collection -/

theorem run_batch_ok {E A : Type} (l : List (Except E A)) :
    run_batch l = Except.ok (l.map fun fut =>
      match fut with
      | .ok a => Sum.inl a
      | .error e => Sum.inr e) := by
  induction l with
  | nil => rfl
  | cons fut rest ih =>
    cases fut <;> simp [run_batch, process_future, future_result, ih] <;> rfl

/-! ## A concrete reachable scene (counts within the sampled ranges:
10 racks, 5 forklifts, 1 pallet, 5 lights; all jiggle draws at 0). -/

noncomputable def exDims : Dims := ⟨30, 20, 8⟩

noncomputable def exLight : LightDraw := ⟨(0, 0, 7), (0.8, 0.8, 0.8), 5⟩

noncomputable def exRack : ObjDraw := ⟨"assets/rack/rack01.obj", 1, 0, 0, 0, 0, 0⟩

noncomputable def exForklift : ObjDraw :=
  ⟨"assets/forklift/forklift01.obj", 1, 0, 0, 0, 0, 0⟩

noncomputable def exPallet : ObjDraw :=
  ⟨"assets/pallet/pallet01.obj", 1, 0, 0, 0, 0, 0⟩

noncomputable def exTarget : PalletDraw :=
  ⟨"assets/pallet/pallet01.obj", 1, 0, 0, 0.5, 0, 0, 0⟩

noncomputable def exScene : SceneMetadataDocument :=
  generate_scene 0 exDims (0.8, 0.8, 0.8) (List.replicate 5 exLight)
    (List.replicate 10 exRack) (List.replicate 5 exForklift)
    (List.replicate 1 exPallet) exTarget

noncomputable def defaultRecord : SceneObjectRecord := ⟨"", (0, 0, 0), (0, 0, 0), (0, 0, 0)⟩

/-! ## Claim theorems -/

/-- C1: the scene orchestrator writes each object rotation with
`as_euler("xyz")` and no `degrees` keyword, so the stored value is in
radians: in the concrete scene above, the record of the first rack (whose
kubric orientation is the base 90-degree rotation about x, all jiggles
zero, a quaternion `from_quat` misreads scalar-last) stores
(pi, 0, pi/2), while the Euler-xyz-degrees serialization of the same
rotation — the unit `create_transformation_matrix` assumes with
`degrees=True` — is (180, 0, 90), and the two differ. The unit
divergence holds under any quaternion-order convention: no `degrees`
keyword is passed at warehouse.py:333. -/
theorem C1_rotation_written_in_radians_not_degrees :
    (exScene.objects.getD 5 defaultRecord).rotation
        = as_euler_xyz (permQuat (jiggledQuat 0 0 0)) false ∧
    as_euler_xyz (permQuat (jiggledQuat 0 0 0)) false
        = (Real.pi, 0, Real.pi / 2) ∧
    as_euler_xyz (permQuat (jiggledQuat 0 0 0)) true = (180, 0, 90) ∧
    ((Real.pi, 0, Real.pi / 2) : ℝ × ℝ × ℝ) ≠ ((180, 0, 90) : ℝ × ℝ × ℝ) := by
  refine ⟨rfl, as_euler_perm_jiggled_zero_rad, as_euler_perm_jiggled_zero_deg, ?_⟩
  intro h
  have h1 := congrArg Prod.fst h
  simp only at h1
  have hpi : Real.pi < 3.15 := Real.pi_lt_d2
  linarith

/-- C2 counterexample: in the concrete generated scene above, the objects
list of the scene metadata does contain a record named `floor`, because the
floor cube is a `kb.PhysicalObject` and the comprehension filters on
exactly that class. -/
theorem C2_counterexample_floor_is_listed :
    "floor" ∈ exScene.objects.map SceneObjectRecord.name := by
  unfold exScene
  rw [generate_scene_objects]
  simp

/-- C2 (amended): the objects list of every generated scene contains
exactly one record per `kb.PhysicalObject` asset — the floor, the four
wall slabs, the scattered racks, forklifts and pallets, and the target
pallet — in placement order; the floor and walls are included, not
excluded, and the lights are the only assets excluded. -/
theorem C2_objects_are_all_physical_assets (scene_index : ℕ) (dims : Dims)
    (ambient : ℝ × ℝ × ℝ) (lightDraws : List LightDraw)
    (rackDraws forkliftDraws palletDraws : List ObjDraw) (targetDraw : PalletDraw) :
    (generate_scene scene_index dims ambient lightDraws rackDraws forkliftDraws
        palletDraws targetDraw).objects.map SceneObjectRecord.name
      = ["floor", "front_wall", "back_wall", "left_wall", "right_wall"] ++
        rackDraws.map (fun d => basename d.asset) ++
        forkliftDraws.map (fun d => basename d.asset) ++
        palletDraws.map (fun d => basename d.asset) ++
        ["target_" ++ basename targetDraw.asset] ∧
    (generate_scene scene_index dims ambient lightDraws rackDraws forkliftDraws
        palletDraws targetDraw).objects.length
      = 5 + (rackDraws.length + forkliftDraws.length + palletDraws.length) + 1 := by
  rw [generate_scene_objects]
  constructor
  · have hname : (SceneObjectRecord.name ∘ scatteredRecord)
        = fun d : ObjDraw => basename d.asset := funext fun d => rfl
    simp [targetRecord, hname]
  · simp
    omega

/-- C3: the batch coordinator wraps every `future.result()` in
`try/except`, so for every job list it terminates normally (never
propagates a per-scene exception), visits every submitted scene job in
submission order, collects the result of each successful job and logs
each failed one. -/
theorem C3_batch_isolates_scene_failures {E A : Type} (jobs : ℕ → Except E A)
    (num_scenes : ℕ) :
    generate_warehouse_scenes jobs num_scenes
      = Except.ok ((List.range num_scenes).map fun i =>
          match jobs i with
          | .ok a => Sum.inl a
          | .error e => Sum.inr e) := by
  unfold generate_warehouse_scenes
  rw [run_batch_ok, List.map_map]
  rfl

/-- C4: for positive `num_angles`, the camera rig sampler emits exactly
`num_angles * distances.length` poses, indexed densely from 0 in
angle-outer/distance-inner order, and the pose at flat index
`i * distances.length + j` sits at
x = target.x + d * cos(i * 360 / num_angles degrees) and
y = target.y + d * sin(i * 360 / num_angles degrees)
for d the j-th distance. -/
theorem C4_camera_grid (target : ℝ × ℝ × ℝ) (num_angles : ℕ)
    (hn : 0 < num_angles) (distances : List ℝ) (jitter focal : ℕ → ℕ → ℝ) :
    (setup_cameras target num_angles distances jitter focal).length
        = num_angles * distances.length ∧
    ∀ i j (hi : i < num_angles) (hj : j < distances.length)
      (hidx : i * distances.length + j
        < (setup_cameras target num_angles distances jitter focal).length),
      ((setup_cameras target num_angles distances jitter focal).get
          ⟨i * distances.length + j, hidx⟩).position.1
          = target.1 + distances.get ⟨j, hj⟩ *
              Real.cos (radians ((i : ℝ) * 360 / (num_angles : ℝ))) ∧
      ((setup_cameras target num_angles distances jitter focal).get
          ⟨i * distances.length + j, hidx⟩).position.2.1
          = target.2.1 + distances.get ⟨j, hj⟩ *
              Real.sin (radians ((i : ℝ) * 360 / (num_angles : ℝ))) := by
  constructor
  · exact anglesLoop_length target num_angles distances jitter focal num_angles
  · intro i j hi hj hidx
    unfold setup_cameras at hidx ⊢
    rw [anglesLoop_get target num_angles distances jitter focal num_angles i j hi hj]
    constructor
    · show target.1 + distances.get ⟨j, hj⟩ *
          Real.cos (radians (360 / (num_angles : ℝ) * (i : ℝ))) = _
      rw [show 360 / (num_angles : ℝ) * (i : ℝ) = (i : ℝ) * 360 / (num_angles : ℝ)
        from by ring]
    · show target.2.1 + distances.get ⟨j, hj⟩ *
          Real.sin (radians (360 / (num_angles : ℝ) * (i : ℝ))) = _
      rw [show 360 / (num_angles : ℝ) * (i : ℝ) = (i : ℝ) * 360 / (num_angles : ℝ)
        from by ring]

/-- C4 witness: one angle, one distance, target at the origin; the single
pose is at x = 0 + 2 * cos 0 = 2. -/
theorem C4_camera_grid_witness :
    (setup_cameras (0, 0, 0) 1 [2] (fun _ _ => 0) (fun _ _ => 0)).length = 1 * 1 ∧
    ((setup_cameras (0, 0, 0) 1 [2] (fun _ _ => 0) (fun _ _ => 0)).get
        ⟨0, by unfold setup_cameras; rw [anglesLoop_length]; norm_num⟩).position.1 = 2 := by
  have h := C4_camera_grid (0, 0, 0) 1 (by norm_num) [2]
    (fun _ _ => 0) (fun _ _ => 0)
  refine ⟨h.1, ?_⟩
  have h2 := h.2 0 0 (by norm_num) (by norm_num)
    (by rw [h.1]; norm_num)
  have h3 := h2.1
  rw [show ((0 : ℕ) : ℝ) * 360 / ((1 : ℕ) : ℝ) = 0 by norm_num] at h3
  rw [show radians 0 = 0 by simp [radians]] at h3
  rw [Real.cos_zero] at h3
  norm_num at h3
  exact h3

/-- C5: the claim fails on the code. `save_render_data` forms the relative
rotation from `Rotation.from_quat(camera.quaternion)` and
`Rotation.from_quat(pallet.quaternion)`, but kubric stores quaternions
scalar-first while scipy reads the 4-array scalar-last, so the code
composes the rotations of component-permuted quaternions. At the failing
input — identity camera orientation, pallet orientation the base
90-degree rotation about x (zero jiggles) — the rotation mapping the
camera's orientation to the target's is the pallet rotation itself,
whose Euler xyz degrees are (90, 0, 0); the document instead stores
(0, 0, -90). The position half of the claim does hold: the document
stores pallet minus camera componentwise. -/
theorem C5_relative_orientation_misreads_quaternions :
    (save_render_data_metadata "output" 0 0 (0, 0, 0) qid 5 (1, 2, 3)
        (jiggledQuat 0 0 0)).relative_position_xyz = (1, 2, 3) ∧
    (save_render_data_metadata "output" 0 0 (0, 0, 0) qid 5 (1, 2, 3)
        (jiggledQuat 0 0 0)).relative_orientation_xyz = (0, 0, -90) ∧
    qmul qid (jiggledQuat 0 0 0) = jiggledQuat 0 0 0 ∧
    as_euler_xyz (jiggledQuat 0 0 0) true = (90, 0, 0) ∧
    ((0, 0, -90) : ℝ × ℝ × ℝ) ≠ ((90, 0, 0) : ℝ × ℝ × ℝ) := by
  refine ⟨?_, ?_, qid_mul _, as_euler_jiggled_zero_deg, ?_⟩
  · show vsub (1, 2, 3) (0, 0, 0) = (1, 2, 3)
    norm_num [vsub]
  · show as_euler_xyz (qmul (qconj (permQuat qid)) (permQuat (jiggledQuat 0 0 0)))
        true = (0, 0, -90)
    rw [relquat_id_jiggled]
    exact as_euler_relquat_deg
  · intro h
    have h1 := congrArg Prod.fst h
    simp only at h1
    norm_num at h1

/-- C6: the path strings stored in the camera metadata are relative to the
batch output root, of the form `scene_i/cam_j/rgba.png` and
`scene_i/cam_j/depth.tiff`, while the converter joins them under
`scene_path/cam_dir`; the path string the converter constructs is never
the path string the orchestrator wrote the image to. -/
theorem C6_converter_path_mismatch (out : String) (i j : ℕ)
    (camera_position pallet_position : ℝ × ℝ × ℝ) (cq pq : Quat) (f : ℝ) :
    (save_render_data_metadata out i j camera_position cq f pallet_position
        pq).rgba_path
      = scene_dir_name i ++ "/" ++ cam_dir_name j ++ "/" ++ "rgba.png" ∧
    (save_render_data_metadata out i j camera_position cq f pallet_position
        pq).depth_path
      = scene_dir_name i ++ "/" ++ cam_dir_name j ++ "/" ++ "depth.tiff" ∧
    converter_rgba_read_path out i j
        (save_render_data_metadata out i j camera_position cq f pallet_position
          pq).rgba_path
      ≠ rgba_write_path out i j ∧
    converter_depth_read_path out i j
        (save_render_data_metadata out i j camera_position cq f pallet_position
          pq).depth_path
      ≠ depth_write_path out i j := by
  refine ⟨stored_leaf_path out i j "rgba.png", stored_leaf_path out i j "depth.tiff",
    ?_, ?_⟩
  · rw [show (save_render_data_metadata out i j camera_position cq f pallet_position
          pq).rgba_path
        = scene_dir_name i ++ "/" ++ cam_dir_name j ++ "/" ++ "rgba.png"
      from stored_leaf_path out i j "rgba.png"]
    exact converter_leaf_mismatch out i j "rgba.png"
  · rw [show (save_render_data_metadata out i j camera_position cq f pallet_position
          pq).depth_path
        = scene_dir_name i ++ "/" ++ cam_dir_name j ++ "/" ++ "depth.tiff"
      from stored_leaf_path out i j "depth.tiff"]
    exact converter_leaf_mismatch out i j "depth.tiff"

/-- C7: for every generated scene whose light count n was drawn from
randint(5, 10), the recorded `num_lights` equals the number of light
entities actually added, lies in [5, 10], and those lights are exactly one
directional light (the light at index 0) plus n - 1 point lights. -/
theorem C7_num_lights_counts (scene_index : ℕ) (dims : Dims) (ambient : ℝ × ℝ × ℝ)
    (lightDraws : List LightDraw)
    (rackDraws forkliftDraws palletDraws : List ObjDraw) (targetDraw : PalletDraw)
    (n : ℕ) (h5 : 5 ≤ n) (h10 : n ≤ 10) (hlen : lightDraws.length = n) :
    (generate_scene scene_index dims ambient lightDraws rackDraws forkliftDraws
        palletDraws targetDraw).lighting_conditions.num_lights
      = ((generate_scene_assets dims lightDraws rackDraws forkliftDraws palletDraws
          targetDraw).filter Entity.isLight).length ∧
    (generate_scene scene_index dims ambient lightDraws rackDraws forkliftDraws
        palletDraws targetDraw).lighting_conditions.num_lights = n ∧
    5 ≤ (generate_scene scene_index dims ambient lightDraws rackDraws forkliftDraws
        palletDraws targetDraw).lighting_conditions.num_lights ∧
    (generate_scene scene_index dims ambient lightDraws rackDraws forkliftDraws
        palletDraws targetDraw).lighting_conditions.num_lights ≤ 10 ∧
    ((generate_scene_assets dims lightDraws rackDraws forkliftDraws palletDraws
        targetDraw).filter Entity.isDirectionalLight).length = 1 ∧
    ((generate_scene_assets dims lightDraws rackDraws forkliftDraws palletDraws
        targetDraw).filter Entity.isPointLight).length = n - 1 := by
  obtain ⟨d, rest, rfl⟩ : ∃ d rest, lightDraws = d :: rest := by
    cases lightDraws with
    | nil => simp at hlen; omega
    | cons d rest => exact ⟨d, rest, rfl⟩
  have hcount : ((generate_scene_assets dims (d :: rest) rackDraws forkliftDraws
      palletDraws targetDraw).filter Entity.isLight).length = n := by
    unfold generate_scene_assets
    simp only [List.filter_append, filter_isLight_building, filter_isLight_objects,
      filter_isLight_lighting]
    rw [show ([place_pallet targetDraw].filter Entity.isLight) = [] from by
      simp [place_pallet, Entity.isLight]]
    simpa [length_lighting] using hlen
  refine ⟨rfl, hcount, ?_, ?_, ?_, ?_⟩
  · show 5 ≤ ((generate_scene_assets dims (d :: rest) rackDraws forkliftDraws
        palletDraws targetDraw).filter Entity.isLight).length
    omega
  · show ((generate_scene_assets dims (d :: rest) rackDraws forkliftDraws
        palletDraws targetDraw).filter Entity.isLight).length ≤ 10
    omega
  · unfold generate_scene_assets
    simp only [List.filter_append, filter_isDirectional_building,
      filter_isDirectional_objects, filter_isDirectional_lighting]
    rw [show ([place_pallet targetDraw].filter Entity.isDirectionalLight) = [] from by
      simp [place_pallet, Entity.isDirectionalLight]]
    simp
  · unfold generate_scene_assets
    simp only [List.filter_append, filter_isPoint_building, filter_isPoint_objects,
      filter_isPoint_lighting]
    rw [show ([place_pallet targetDraw].filter Entity.isPointLight) = [] from by
      simp [place_pallet, Entity.isPointLight]]
    simp only [List.length_append, List.length_nil, List.length_map]
    simp at hlen
    omega

/-- C7 witness: the concrete scene above has 5 light draws and records
num_lights = 5. -/
theorem C7_num_lights_counts_witness :
    exScene.lighting_conditions.num_lights = 5 := by
  have h := C7_num_lights_counts 0 exDims (0.8, 0.8, 0.8) (List.replicate 5 exLight)
    (List.replicate 10 exRack) (List.replicate 5 exForklift)
    (List.replicate 1 exPallet) exTarget 5 (by norm_num) (by norm_num) (by simp)
  exact h.2.1

/-- C8: on a directory walk yielding exactly `pallet01_color.jpg`,
`pallet01_normal.jpg` and `rack02_roughness.png`, `discover_textures`
returns exactly the two texture sets
(color = pallet01_color, normal = pallet01_normal, no roughness) and
(roughness = rack02_roughness, no color, no normal); and in general every
file stored in a group keys to the portion of its base filename before
the first underscore separator. -/
theorem C8_discover_textures_grouping :
    discover_textures ["tex/pallet01_color.jpg", "tex/pallet01_normal.jpg",
        "tex/rack02_roughness.png"]
      = [⟨some "tex/pallet01_color.jpg", some "tex/pallet01_normal.jpg", none⟩,
         ⟨none, none, some "tex/rack02_roughness.png"⟩] ∧
    ∀ (files : List String) (p : String × TextureSet) (f : String),
      p ∈ grouped_textures files →
      (p.2.color = some f ∨ p.2.normal = some f ∨ p.2.roughness = some f) →
      texKey f = p.1 := by
  constructor
  · decide
  · intro files p f hp hf
    exact grouped_textures_inv files p hp f hf

/-- C8 witness: the color file of the concrete walk keys to `pallet01`. -/
theorem C8_discover_textures_grouping_witness :
    texKey "tex/pallet01_color.jpg" = "pallet01" := by
  exact C8_discover_textures_grouping.2 ["tex/pallet01_color.jpg"]
    ("pallet01", ⟨some "tex/pallet01_color.jpg", none, none⟩)
    "tex/pallet01_color.jpg" (by decide) (Or.inl rfl)

/-- C9: every camera pose produced by the rig sampler has z at least 0.1,
for every target (including zero or negative target z) and every jitter
stream with values in [-0.2, 0.2], because the sampler clamps
`target.z + jitter` at 0.1. -/
theorem C9_camera_z_clamped (target : ℝ × ℝ × ℝ) (num_angles : ℕ)
    (distances : List ℝ) (jitter focal : ℕ → ℕ → ℝ)
    (hj : ∀ i j, -0.2 ≤ jitter i j ∧ jitter i j ≤ 0.2) :
    ∀ cam ∈ setup_cameras target num_angles distances jitter focal,
      (0.1 : ℝ) ≤ cam.position.2.2 := by
  intro cam hc
  exact anglesLoop_z target num_angles distances jitter focal num_angles cam hc

/-- C9 witness: a target below the ground plane at z = -5 with zero jitter
still yields a camera with z at least 0.1. -/
theorem C9_camera_z_clamped_witness :
    (0.1 : ℝ) ≤ ((setup_cameras (0, 0, -5) 1 [1] (fun _ _ => 0) (fun _ _ => 0)).get
        ⟨0, by unfold setup_cameras; rw [anglesLoop_length]; norm_num⟩).position.2.2 := by
  exact C9_camera_z_clamped (0, 0, -5) 1 [1] (fun _ _ => 0) (fun _ _ => 0)
    (fun i j => by norm_num) _ (List.get_mem _ _ _)

/-- C10: for every position vector and Euler-xyz-degrees triple, the 4x4
matrix built by `create_transformation_matrix` has an orthonormal top-left
3x3 block of determinant exactly 1, its top-right 3x1 block is the
position, and its last row is exactly [0, 0, 0, 1]. -/
theorem C10_transformation_matrix_shape (position euler_angles : Fin 3 → ℝ) :
    (topLeft3 (create_transformation_matrix position euler_angles)).transpose *
        topLeft3 (create_transformation_matrix position euler_angles) = 1 ∧
    (topLeft3 (create_transformation_matrix position euler_angles)).det = 1 ∧
    (∀ i : Fin 3, create_transformation_matrix position euler_angles
        (Fin.castLE (by omega) i) 3 = position i) ∧
    create_transformation_matrix position euler_angles 3 = ![0, 0, 0, 1] := by
  refine ⟨?_, ?_, ?_, ?_⟩
  · rw [topLeft3_ctm]
    exact from_euler_orth _ _ _
  · rw [topLeft3_ctm]
    exact from_euler_det _ _ _
  · intro i
    fin_cases i <;> rfl
  · funext j
    fin_cases j <;> rfl

end Warehouse
